import Mathlib

/-!
Shallow embedding of the LanguagerEN2 vocabulary bot core:
the word service / repository layer (`internal/service/word.go`,
`internal/service/stats.go`, `internal/repository/postgres/word.go`),
the domain types and date formatting (`internal/domain`), and the
text-message handler state machine (`internal/handler/word.go`,
`internal/handler/handler.go`).

Timestamps are modelled as integers (seconds); calendar dates as
year/month/day triples. Go `time.Parse("20060102", s)` and
`time.Format("20060102")` are embedded digit-by-digit.
-/

namespace Languager

/-- A calendar date, as Go `time.Time`'s (Year, Month, Day) projection. -/
structure Date where
  year : Nat
  month : Nat
  day : Nat
deriving DecidableEq, Repr

/-- Go `isLeap` (time package): year divisible by 4 and (not by 100 or by 400). -/
def isLeapYear (y : Nat) : Bool :=
  y % 4 == 0 && (y % 100 != 0 || y % 400 == 0)

/-- Go `daysIn(m, year)`: days in a given month of a given year. -/
def daysInMonth (y m : Nat) : Nat :=
  if m == 2 then (if isLeapYear y then 29 else 28)
  else if m == 4 || m == 6 || m == 9 || m == 11 then 30
  else 31

/-- A date is valid when month and day are in calendar range
(the range checks Go `time.Parse` performs). -/
def Date.valid (d : Date) : Bool :=
  1 ≤ d.month && d.month ≤ 12 && 1 ≤ d.day && d.day ≤ daysInMonth d.year d.month

/-- The ASCII digit character for a digit value. -/
def digitChar (n : Nat) : Char := Char.ofNat (48 + n)

/-- Go `isDigit`/`atoi` single character: value of an ASCII digit, else failure. -/
def digitVal (c : Char) : Option Nat :=
  if c.isDigit then some (c.toNat - 48) else none

/-- Decimal value of a digit string (Go `atoi` on an all-digit slice);
fails on any non-digit. -/
def parseDigits : List Char → Nat → Option Nat
  | [], acc => some acc
  | c :: cs, acc =>
    match digitVal c with
    | none => none
    | some d => parseDigits cs (acc * 10 + d)

/-- Embedding of Go `time.Parse("20060102", s)` from
`WordService.GetWordsByDate`: exactly 8 characters, 4-digit year then
2-digit month then 2-digit day, with the month range check (1..12) and
day range check (1..daysIn) that `time.Parse` performs. Any other input
(wrong length, non-digits, out-of-range fields) is a parse error. -/
def parseYYYYMMDD (s : String) : Option Date :=
  let cs := s.data
  if cs.length = 8 then
    match parseDigits (cs.take 4) 0, parseDigits ((cs.drop 4).take 2) 0,
          parseDigits (cs.drop 6) 0 with
    | some y, some m, some d =>
      if 1 ≤ m ∧ m ≤ 12 then
        if 1 ≤ d ∧ d ≤ daysInMonth y m then some ⟨y, m, d⟩ else none
      else none
    | _, _, _ => none
  else none

/-- Go `Format("2006")` (`appendInt(year, 4)`): the year zero-padded to
4 digits; wider years print all their digits. -/
def pad4 (n : Nat) : String :=
  if n < 10000 then
    String.mk [digitChar (n / 1000 % 10), digitChar (n / 100 % 10),
               digitChar (n / 10 % 10), digitChar (n % 10)]
  else toString n

/-- Go `Format("01")` / `Format("02")` (`appendInt(_, 2)`): zero-padded to
2 digits. -/
def pad2 (n : Nat) : String :=
  if n < 100 then String.mk [digitChar (n / 10 % 10), digitChar (n % 10)]
  else toString n

/-- `domain.Day`: a day with a word count (derived aggregate). -/
structure Day where
  date : Date
  wordCount : Nat
deriving DecidableEq, Repr

/-- `Day.DateString`: `d.Date.Format("20060102")`. -/
def Day.DateString (d : Day) : String :=
  pad4 d.date.year ++ pad2 d.date.month ++ pad2 d.date.day

/-- The fixed Russian month-abbreviation table of `Day.DisplayString`
(index 0 unused). -/
def months : List String :=
  ["", "янв", "фев", "мар", "апр", "мая", "июн",
   "июл", "авг", "сен", "окт", "ноя", "дек"]

/-- Go `now.AddDate(0, 0, -1)` on a valid date: the previous calendar day. -/
def prevDay (d : Date) : Date :=
  if d.day > 1 then ⟨d.year, d.month, d.day - 1⟩
  else if d.month > 1 then ⟨d.year, d.month - 1, daysInMonth d.year (d.month - 1)⟩
  else ⟨d.year - 1, 12, 31⟩

/-- `Day.DisplayString`, parameterized by the calendar day of `time.Now()`:
"Сегодня" when year/month/day all match now, "Вчера" when they match
`now.AddDate(0,0,-1)`, else `Format("2 ") + months[month] + Format(" 2006")`. -/
def Day.DisplayString (d : Day) (now : Date) : String :=
  if d.date = now then "Сегодня"
  else if d.date = prevDay now then "Вчера"
  else toString d.date.day ++ " " ++ months.getD d.date.month "" ++ " " ++ pad4 d.date.year

/-- A row of the `words` table (`domain.Word` plus the nullable SQL columns):
`hidden_until` is a nullable timestamp, `hidden_forever` a nullable boolean
(`DEFAULT FALSE`; the queries guard `IS NULL` explicitly). Timestamps are
integers (seconds). -/
structure Word where
  id : Nat
  userID : Int
  word : String
  translation : String
  createdAt : Int
  hiddenUntil : Option Int
  hiddenForever : Option Bool
deriving DecidableEq, Repr

/-- The `WHERE` clause of `WordRepo.GetRandomWord`:
`user_id = $1 AND (hidden_forever = FALSE OR hidden_forever IS NULL)
AND (hidden_until IS NULL OR hidden_until <= NOW())`. -/
def eligibleRow (now : Int) (uid : Int) (w : Word) : Bool :=
  w.userID == uid
    && (w.hiddenForever == some false || w.hiddenForever == none)
    && (match w.hiddenUntil with
        | none => true
        | some t => t ≤ now)

/-- `WordRepo.GetRandomWord`: filter the table by the eligibility clause,
`ORDER BY RANDOM() LIMIT 1` picks some row of the result (modelled by an
arbitrary index `pick`); `sql.ErrNoRows` is turned into `(nil, nil)`,
i.e. `ok none`. -/
def getRandomWord (table : List Word) (uid : Int) (now : Int) (pick : Nat) :
    Except String (Option Word) :=
  let elig := table.filter (eligibleRow now uid)
  if elig.isEmpty then .ok none
  else .ok (elig.get? (pick % elig.length))

/-- `WordRepo.SaveWord`: `INSERT INTO words (user_id, word, translation)`. -/
def saveWord (table : List (Int × String × String)) (uid : Int)
    (word translation : String) : List (Int × String × String) :=
  table ++ [(uid, word, translation)]

/-- Outcome of the store insert used by `WordService.SaveWordPair`: the
repository either performs the insert or reports a database error
(`storeOk` selects which, modelling an arbitrary store failure). -/
def saveWordRepo (storeOk : Bool) (table : List (Int × String × String))
    (uid : Int) (word translation : String) :
    Except String (List (Int × String × String)) :=
  if storeOk then .ok (saveWord table uid word translation) else .error "db error"

/-- `WordService.SaveWordPair`: reject when either string is empty
(`word == "" || translation == ""` — the Go code performs no trimming),
otherwise delegate to `SaveWord` unchanged. -/
def saveWordPair (storeOk : Bool) (table : List (Int × String × String))
    (uid : Int) (word translation : String) :
    Except String (List (Int × String × String)) :=
  if word == "" || translation == "" then
    .error "word and translation cannot be empty"
  else saveWordRepo storeOk table uid word translation

/-- The two repository queries `GetDaysList` composes
(`GetDaysWithWords uid limit offset` and `GetTotalDaysCount uid`),
kept abstract: each either returns rows or a database error. -/
structure DayRepo where
  getDaysWithWords : Int → Int → Int → Except String (List Day)
  getTotalDaysCount : Int → Except String Nat

/-- `WordService.GetDaysList`: clamp `page < 1` to 1, offset
`(page-1)*7`, fetch the page rows, fetch the distinct-day count, and
compute `totalPages = (totalDays + 7 - 1) / 7`, replaced by 1 when 0.
Errors from either query propagate as `(nil, 0, err)`. -/
def getDaysList (repo : DayRepo) (uid : Int) (page : Int) :
    Except String (List Day × Nat) :=
  let pageSize : Int := 7
  let page := if page < 1 then 1 else page
  let offset := (page - 1) * pageSize
  match repo.getDaysWithWords uid pageSize offset with
  | .error e => .error e
  | .ok days =>
    match repo.getTotalDaysCount uid with
    | .error e => .error e
    | .ok totalDays =>
      let totalPages := (totalDays + 7 - 1) / 7
      let totalPages := if totalPages = 0 then 1 else totalPages
      .ok (days, totalPages)

/-- `WordService.GetWordsByDate`, with the repository query
`WordRepo.GetWordsByDate uid date` abstract: parse the `YYYYMMDD` string;
on failure return the invalid-date error without querying the store, on
success query with the parsed date. The second component records the
dates the store was queried with. -/
def getWordsByDate (query : Int → Date → List Word) (uid : Int)
    (dateStr : String) : Except String (List Word) × List Date :=
  match parseYYYYMMDD dateStr with
  | none => (.error "invalid date format", [])
  | some d => (.ok (query uid d), [d])

/-- `WordRepo.CleanOldWords days`:
`DELETE FROM words WHERE created_at < NOW() - INTERVAL '1 day' * $1`
(no user filter; one day is 86400 seconds). The rows kept are exactly
those not strictly older than the cutoff. -/
def cleanOldWords (table : List Word) (now : Int) (days : Int) : List Word :=
  table.filter (fun w => !(w.createdAt < now - 86400 * days))

/-- `StatsService.CleanupOldData`: `CleanOldWords` with the fixed
60-day retention window. -/
def cleanupOldData (table : List Word) (now : Int) : List Word :=
  cleanOldWords table now 60

/-- `domain.UserState`. -/
inductive UserState where
  | idle
  | waitingWord
  | waitingTranslation
  | waitingPassword
deriving DecidableEq, Repr

/-- `domain.StateData`. -/
structure StateData where
  state : UserState
  currentWord : String
  messageID : Int
deriving DecidableEq, Repr

/-- The handler's in-memory `states` map, as an association list keyed by
user id. -/
def StateMap : Type := List (Int × StateData)

/-- `Handler.GetState`: the stored state, or `{State: StateIdle}` when the
user has none. -/
def getState (m : StateMap) (uid : Int) : StateData :=
  match List.lookup uid m with
  | some s => s
  | none => ⟨.idle, "", 0⟩

/-- `Handler.SetState`: map assignment `h.states[userID] = state`. -/
def setState (m : StateMap) (uid : Int) (s : StateData) : StateMap :=
  (uid, s) :: List.filter (fun p => p.1 != uid) m

/-- Whitespace recognized by Go `strings.TrimSpace` (ASCII range). -/
def isSpaceChar (c : Char) : Bool :=
  c == ' ' || c == '\t' || c == '\n' || c == '\r'

/-- Go `strings.TrimSpace`: drop leading and trailing whitespace. -/
def trimSpace (s : String) : String :=
  String.mk ((s.data.dropWhile isSpaceChar).reverse.dropWhile isSpaceChar).reverse

/-- Go `strings.HasPrefix(text, "/")`. -/
def startsWithSlash (s : String) : Bool :=
  match s.data with
  | [] => false
  | c :: _ => c == '/'

/-- `Handler.handleText`, as a pure function of: the store-save outcome
(`storeOk`), the authorization flag the auth service reports, the
password check, the state map, the words table, the sender and the raw
message text. Returns the new state map, the new words table, and the
reply text sent. The logging and the error paths of
`EnsureUserExists` / `IsAuthorized` / `AuthorizeUser` (which only log or
reply generically) are outside this model. -/
def handleText (storeOk : Bool) (authorized : Bool) (pwOk : String → Bool)
    (states : StateMap) (table : List (Int × String × String))
    (uid : Int) (raw : String) :
    StateMap × List (Int × String × String) × String :=
  let text := trimSpace raw
  if startsWithSlash text then (states, table, "")
  else if !authorized then
    if pwOk text then
      (setState states uid ⟨.idle, "", 0⟩, table,
       "✅ Доступ разрешён!\n\n🏠 Главное меню\n\nВыберите действие:")
    else (states, table, "Непральна")
  else
    let st := getState states uid
    match st.state with
    | .waitingWord =>
      (setState states uid ⟨.waitingTranslation, text, 0⟩, table, "Жду перевод")
    | .waitingTranslation =>
      match saveWordPair storeOk table uid st.currentWord text with
      | .error _ =>
        (states, table, "Не удалось сохранить слово. Попробуйте ещё раз.")
      | .ok table2 =>
        (setState states uid ⟨.waitingWord, "", 0⟩, table2,
         "✅ Сохранено!\n\nМожешь отправить следующее слово или вернуться в /start")
    | _ =>
      (setState states uid ⟨.waitingTranslation, text, 0⟩, table, "Жду перевод")

/-- Numeric value of an ASCII digit character. -/
def charDigit (c : Char) : Nat := c.toNat - 48

/-- The calendar date an 8-character digit string denotes positionally
(4-digit year, 2-digit month, 2-digit day); junk on other shapes. -/
def tokenDate (s : String) : Date :=
  match s.data with
  | [y1, y2, y3, y4, m1, m2, d1, d2] =>
    ⟨((charDigit y1 * 10 + charDigit y2) * 10 + charDigit y3) * 10 + charDigit y4,
     charDigit m1 * 10 + charDigit m2,
     charDigit d1 * 10 + charDigit d2⟩
  | _ => ⟨0, 0, 0⟩

/-- The spec's "8-digit YYYYMMDD token": exactly 8 ASCII digits denoting
a calendar-valid year/month/day. Stated independently of the embedded
Go parser, to compare the two. -/
def isYYYYMMDDToken (s : String) : Bool :=
  s.data.length = 8 && s.data.all Char.isDigit && (tokenDate s).valid

/-- Reading back the state just set returns it. -/
theorem getState_setState (m : StateMap) (uid : Int) (s : StateData) :
    getState (setState m uid s) uid = s := by
  simp [getState, setState, List.lookup]

/-- C1: for every table, user and fixed now, `GetRandomWord` returns
`(nil, nil)` when the user has no eligible rows, and any row it returns
has `hidden_forever` not true and `hidden_until` unset or not after now,
whichever row the database's `ORDER BY RANDOM()` picks. -/
theorem getRandomWord_eligible (table : List Word) (uid now : Int) (pick : Nat) :
    (table.filter (eligibleRow now uid) = [] →
      getRandomWord table uid now pick = .ok none) ∧
    (∀ w, getRandomWord table uid now pick = .ok (some w) →
      w.hiddenForever ≠ some true ∧ ∀ t, w.hiddenUntil = some t → t ≤ now) := by
  constructor
  · intro h
    simp [getRandomWord, h]
  · intro w hw
    unfold getRandomWord at hw
    by_cases he : (table.filter (eligibleRow now uid)).isEmpty
    · simp [he] at hw
    · simp only [he, if_false, Bool.false_eq_true, Except.ok.injEq] at hw
      have hmem : w ∈ table.filter (eligibleRow now uid) := List.get?_mem hw
      have helig := (List.mem_filter.mp hmem).2
      simp only [eligibleRow, Bool.and_eq_true, Bool.or_eq_true, beq_iff_eq] at helig
      obtain ⟨⟨_, hforever⟩, huntil⟩ := helig
      constructor
      · rcases hforever with h | h <;> simp [h]
      · intro t ht
        rw [ht] at huntil
        simpa using huntil

/-- Witness for C1 at concrete inputs: the empty table gives `ok none`,
and a returned row from a mixed table satisfies the visibility flags. -/
theorem getRandomWord_eligible_witness :
    getRandomWord [] 1 100 0 = .ok none ∧
    ((⟨2, 1, "c", "d", 0, some 50, some false⟩ : Word).hiddenForever ≠ some true ∧
      ∀ t, (⟨2, 1, "c", "d", 0, some 50, some false⟩ : Word).hiddenUntil = some t →
        t ≤ 100) :=
  ⟨(getRandomWord_eligible [] 1 100 0).1 rfl,
   (getRandomWord_eligible
      [⟨1, 1, "a", "b", 0, none, some true⟩, ⟨2, 1, "c", "d", 0, some 50, some false⟩]
      1 100 7).2 _ rfl⟩

/-- C2 counterexample: a whitespace-only word trims to empty, yet
`SaveWordPair` accepts it and writes the pair to the store — the service
performs no trimming. -/
theorem saveWordPair_trim_counterexample :
    trimSpace " " = "" ∧ saveWordPair true [] 1 " " "x" = .ok [(1, " ", "x")] :=
  ⟨rfl, rfl⟩

/-- C2 (amended): `SaveWordPair` fails with the validation error exactly
when word or translation is the empty string (no trimming), performing
no store write; otherwise it delegates the pair unchanged to the store. -/
theorem saveWordPair_validation (storeOk : Bool)
    (table : List (Int × String × String)) (uid : Int) (word translation : String) :
    (word = "" ∨ translation = "" →
      saveWordPair storeOk table uid word translation
        = .error "word and translation cannot be empty") ∧
    (word ≠ "" → translation ≠ "" →
      saveWordPair storeOk table uid word translation
        = saveWordRepo storeOk table uid word translation) := by
  constructor
  · intro h
    rcases h with h | h <;> simp [saveWordPair, h]
  · intro hw ht
    simp [saveWordPair, hw, ht]

/-- Witness for C2 (amended) at concrete inputs. -/
theorem saveWordPair_validation_witness :
    saveWordPair true [] 1 "" "x" = .error "word and translation cannot be empty" ∧
    saveWordPair true [] 1 "a" "b" = saveWordRepo true [] 1 "a" "b" :=
  ⟨(saveWordPair_validation true [] 1 "" "x").1 (Or.inl rfl),
   (saveWordPair_validation true [] 1 "a" "b").2 (by decide) (by decide)⟩

/-- C6: `GetDaysList` with any page ≤ 0 behaves identically to page 1:
the clamp makes the store calls and the returned rows, page count and
error outcome coincide. -/
theorem getDaysList_clamp (repo : DayRepo) (uid : Int) (page : Int)
    (h : page ≤ 0) :
    getDaysList repo uid page = getDaysList repo uid 1 := by
  have h1 : (if page < 1 then (1 : Int) else page) = 1 := by
    rw [if_pos]; omega
  simp only [getDaysList, h1]
  norm_num

/-- Witness for C6: page −3 and page 1 agree on a concrete repository. -/
theorem getDaysList_clamp_witness :
    getDaysList ⟨fun _ _ _ => .ok [], fun _ => .ok 14⟩ 1 (-3)
      = getDaysList ⟨fun _ _ _ => .ok [], fun _ => .ok 14⟩ 1 1 :=
  getDaysList_clamp ⟨fun _ _ _ => .ok [], fun _ => .ok 14⟩ 1 (-3) (by norm_num)

/-- C7: one run of the retention sweep (`CleanupOldData`, i.e.
`CleanOldWords` with the 60-day window) removes exactly the rows created
strictly before now minus 60 days — regardless of user — and keeps every
other row, with unchanged multiplicity. -/
theorem cleanupOldData_retention (table : List Word) (now : Int) (w : Word)
    (hw : w ∈ table) :
    (w.createdAt < now - 86400 * 60 → w ∉ cleanupOldData table now) ∧
    (now - 86400 * 60 ≤ w.createdAt → w ∈ cleanupOldData table now) ∧
    (now - 86400 * 60 ≤ w.createdAt →
      (cleanupOldData table now).count w = table.count w) := by
  unfold cleanupOldData cleanOldWords
  refine ⟨?_, ?_, ?_⟩
  · intro hold hmem
    have hkeep := (List.mem_filter.mp hmem).2
    simp only [Bool.not_eq_true', decide_eq_false_iff_not, not_lt] at hkeep
    omega
  · intro hnew
    refine List.mem_filter.mpr ⟨hw, ?_⟩
    simp only [Bool.not_eq_true', decide_eq_false_iff_not, not_lt]
    omega
  · intro hnew
    refine List.count_filter ?_
    simp only [Bool.not_eq_true', decide_eq_false_iff_not, not_lt]
    omega

/-- Witness for C7: in a two-row table with now = 10000000, the old row
is deleted and the recent row survives with its count intact. -/
theorem cleanupOldData_retention_witness :
    (⟨2, 1, "c", "d", 10000000, none, none⟩ : Word) ∈
      cleanupOldData [⟨1, 1, "a", "b", 0, none, none⟩,
        ⟨2, 1, "c", "d", 10000000, none, none⟩] 10000000 ∧
    (cleanupOldData [⟨1, 1, "a", "b", 0, none, none⟩,
        ⟨2, 1, "c", "d", 10000000, none, none⟩] 10000000).count
        ⟨2, 1, "c", "d", 10000000, none, none⟩
      = ([⟨1, 1, "a", "b", 0, none, none⟩,
          ⟨2, 1, "c", "d", 10000000, none, none⟩] :
          List Word).count ⟨2, 1, "c", "d", 10000000, none, none⟩ :=
  ⟨(cleanupOldData_retention
      [⟨1, 1, "a", "b", 0, none, none⟩, ⟨2, 1, "c", "d", 10000000, none, none⟩]
      10000000 ⟨2, 1, "c", "d", 10000000, none, none⟩ (by simp)).2.1 (by decide),
   (cleanupOldData_retention
      [⟨1, 1, "a", "b", 0, none, none⟩, ⟨2, 1, "c", "d", 10000000, none, none⟩]
      10000000 ⟨2, 1, "c", "d", 10000000, none, none⟩ (by simp)).2.2 (by decide)⟩

/-- C4: whenever `GetDaysList` succeeds, the page count it returns is 1
when the distinct-day count is 0, and otherwise the ceiling of that
count divided by the page size 7 (characterized by
`7 * (total − 1) < t ≤ 7 * total`). -/
theorem getDaysList_totalPages (repo : DayRepo) (uid page : Int)
    (days : List Day) (total t : Nat)
    (ht : repo.getTotalDaysCount uid = .ok t)
    (h : getDaysList repo uid page = .ok (days, total)) :
    (t = 0 → total = 1) ∧ (0 < t → 7 * (total - 1) < t ∧ t ≤ 7 * total) := by
  simp only [getDaysList] at h
  rcases hd : repo.getDaysWithWords uid 7 (((if page < 1 then 1 else page) - 1) * 7)
    with e | ds
  · rw [hd] at h
    simp at h
  · rw [hd, ht] at h
    simp only [Except.ok.injEq, Prod.mk.injEq] at h
    obtain ⟨-, htot⟩ := h
    split at htot <;> (constructor <;> intro <;> omega)

/-- Witness for C4: 14 distinct days on a concrete repository give total
2, i.e. `7*(2−1) < 14 ≤ 7*2`, matching ceil(14/7) = 2. -/
theorem getDaysList_totalPages_witness :
    7 * ((2 : Nat) - 1) < 14 ∧ (14 : Nat) ≤ 7 * 2 :=
  (getDaysList_totalPages ⟨fun _ _ _ => .ok [], fun _ => .ok 14⟩ 1 1 [] 2 14
    rfl rfl).2 (by norm_num)

/-- C3 counterexample: an authorized user in `WaitingTranslation` with
pending word "кот" sends "cat"; the pair is persisted, but the state the
handler stores is `WaitingWord` — not `WaitingTranslation` as the claim
says. -/
theorem handleText_state_counterexample :
    (handleText true true (fun _ => false)
        [(1, ⟨.waitingTranslation, "кот", 0⟩)] [] 1 "cat").2.1
      = [(1, "кот", "cat")] ∧
    (getState (handleText true true (fun _ => false)
        [(1, ⟨.waitingTranslation, "кот", 0⟩)] [] 1 "cat").1 1).state
      = .waitingWord ∧
    UserState.waitingWord ≠ UserState.waitingTranslation :=
  ⟨rfl, rfl, by simp⟩

/-- C3 (amended): an authorized user in `WaitingTranslation` with a
nonempty pending word who sends a non-command message with nonempty
trimmed text, when the store insert succeeds, gets the pair
(pending word, trimmed text) appended to the store, and the handler sets
the state to `WaitingWord` with a cleared `CurrentWord`. -/
theorem handleText_save_transition (pwOk : String → Bool) (states : StateMap)
    (table : List (Int × String × String)) (uid : Int) (raw word : String)
    (mid : Int)
    (hst : getState states uid = ⟨.waitingTranslation, word, mid⟩)
    (hw : word ≠ "") (htr : trimSpace raw ≠ "")
    (hc : startsWithSlash (trimSpace raw) = false) :
    handleText true true pwOk states table uid raw
      = (setState states uid ⟨.waitingWord, "", 0⟩,
         table ++ [(uid, word, trimSpace raw)],
         "✅ Сохранено!\n\nМожешь отправить следующее слово или вернуться в /start") ∧
    getState (handleText true true pwOk states table uid raw).1 uid
      = ⟨.waitingWord, "", 0⟩ := by
  have hmain : handleText true true pwOk states table uid raw
      = (setState states uid ⟨.waitingWord, "", 0⟩,
         table ++ [(uid, word, trimSpace raw)],
         "✅ Сохранено!\n\nМожешь отправить следующее слово или вернуться в /start") := by
    simp only [handleText, hc, hst, Bool.not_true, Bool.false_eq_true, if_false,
      Bool.true_eq_false]
    simp [saveWordPair, saveWordRepo, saveWord, hw, htr]
  exact ⟨hmain, by rw [hmain]; exact getState_setState states uid _⟩

/-- Witness for C3 (amended) at a concrete run. -/
theorem handleText_save_transition_witness :
    (handleText true true (fun _ => false)
        [(1, ⟨.waitingTranslation, "кот", 0⟩)] [] 1 " cat "
      = (setState [(1, ⟨.waitingTranslation, "кот", 0⟩)] 1 ⟨.waitingWord, "", 0⟩,
         [] ++ [(1, "кот", trimSpace " cat ")],
         "✅ Сохранено!\n\nМожешь отправить следующее слово или вернуться в /start")) ∧
    getState (handleText true true (fun _ => false)
        [(1, ⟨.waitingTranslation, "кот", 0⟩)] [] 1 " cat ").1 1
      = ⟨.waitingWord, "", 0⟩ :=
  handleText_save_transition (fun _ => false)
    [(1, ⟨.waitingTranslation, "кот", 0⟩)] [] 1 " cat " "кот" 0
    rfl (by decide) (by decide) rfl

/-- C8: when the store insert fails, the handler leaves the conversation
state map and the words table exactly as they were and replies with the
generic failure message, so resending the same translation retries the
same pair. -/
theorem handleText_store_failure (pwOk : String → Bool) (states : StateMap)
    (table : List (Int × String × String)) (uid : Int) (raw word : String)
    (mid : Int)
    (hst : getState states uid = ⟨.waitingTranslation, word, mid⟩)
    (hw : word ≠ "") (htr : trimSpace raw ≠ "")
    (hc : startsWithSlash (trimSpace raw) = false) :
    handleText false true pwOk states table uid raw
      = (states, table, "Не удалось сохранить слово. Попробуйте ещё раз.") := by
  simp only [handleText, hc, Bool.not_true, Bool.false_eq_true, if_false, hst,
    Bool.true_eq_false]
  simp [saveWordPair, saveWordRepo, hw, htr]

/-- Witness for C8 at a concrete run: the state map keeps the same state
enum and pending word. -/
theorem handleText_store_failure_witness :
    handleText false true (fun _ => false)
        [(1, ⟨.waitingTranslation, "кот", 0⟩)] [] 1 "cat"
      = ([(1, ⟨.waitingTranslation, "кот", 0⟩)], [],
         "Не удалось сохранить слово. Попробуйте ещё раз.") :=
  handleText_store_failure (fun _ => false)
    [(1, ⟨.waitingTranslation, "кот", 0⟩)] [] 1 "cat" "кот" 0
    rfl (by decide) (by decide) rfl

/-- C9: the day label is "Сегодня" when the date is the calendar day of
now, "Вчера" when it is the calendar day immediately before now
(`now.AddDate(0,0,-1)`), and otherwise the unpadded day, the month's
entry of the fixed month table and the 4-digit year, space-separated. -/
theorem day_displayString_cases (d : Day) (now : Date) :
    (d.date = now → d.DisplayString now = "Сегодня") ∧
    (d.date ≠ now → d.date = prevDay now → d.DisplayString now = "Вчера") ∧
    (d.date ≠ now → d.date ≠ prevDay now →
      d.DisplayString now
        = toString d.date.day ++ " " ++ months.getD d.date.month "" ++ " "
            ++ pad4 d.date.year) := by
  refine ⟨fun h => ?_, fun h1 h2 => ?_, fun h1 h2 => ?_⟩
  · unfold Day.DisplayString
    rw [if_pos h]
  · unfold Day.DisplayString
    rw [if_neg h1, if_pos h2]
  · unfold Day.DisplayString
    rw [if_neg h1, if_neg h2]

/-- Witness for C9: today, yesterday, and the fixed example
2024-06-15 → "15 июн 2024" (day 15, 6th month entry, year 2024). -/
theorem day_displayString_cases_witness :
    Day.DisplayString ⟨⟨2024, 10, 11⟩, 1⟩ ⟨2024, 10, 11⟩ = "Сегодня" ∧
    Day.DisplayString ⟨⟨2024, 10, 10⟩, 1⟩ ⟨2024, 10, 11⟩ = "Вчера" ∧
    Day.DisplayString ⟨⟨2024, 6, 15⟩, 1⟩ ⟨2024, 10, 11⟩ = "15 июн 2024" := by
  refine ⟨(day_displayString_cases ⟨⟨2024, 10, 11⟩, 1⟩ ⟨2024, 10, 11⟩).1 rfl,
    (day_displayString_cases ⟨⟨2024, 10, 10⟩, 1⟩ ⟨2024, 10, 11⟩).2.1
      (by decide) (by decide),
    ?_⟩
  have h := (day_displayString_cases ⟨⟨2024, 6, 15⟩, 1⟩ ⟨2024, 10, 11⟩).2.2
    (by decide) (by decide)
  rw [h]
  rfl

/-- `parseDigits` succeeds exactly on all-digit character lists,
computing the decimal value. -/
theorem parseDigits_eq (cs : List Char) (acc : Nat) :
    parseDigits cs acc
      = if cs.all Char.isDigit
        then some (cs.foldl (fun a c => a * 10 + charDigit c) acc)
        else none := by
  induction cs generalizing acc with
  | nil => simp [parseDigits]
  | cons c cs ih =>
    simp only [parseDigits, digitVal, List.all_cons, List.foldl_cons]
    by_cases hc : c.isDigit
    · simp [hc, ih, charDigit]
    · simp [hc]

/-- A list of length 8 is an explicit 8-tuple. -/
theorem list_eq_of_length_eight {α : Type} (cs : List α) (h : cs.length = 8) :
    ∃ a b c d e f g k, cs = [a, b, c, d, e, f, g, k] := by
  rcases cs with - | ⟨a, cs⟩
  · simp at h
  rcases cs with - | ⟨b, cs⟩
  · simp at h
  rcases cs with - | ⟨c, cs⟩
  · simp at h
  rcases cs with - | ⟨d, cs⟩
  · simp at h
  rcases cs with - | ⟨e, cs⟩
  · simp at h
  rcases cs with - | ⟨f, cs⟩
  · simp at h
  rcases cs with - | ⟨g, cs⟩
  · simp at h
  rcases cs with - | ⟨k, cs⟩
  · simp at h
  rcases cs with - | ⟨x, cs⟩
  · exact ⟨a, b, c, d, e, f, g, k, rfl⟩
  · simp at h

/-- An if-chain returning `some` exactly on its conditions is `isSome`
iff the conjunction holds. -/
theorem isSome_double_ite {α : Type} (P Q : Prop) [Decidable P] [Decidable Q]
    (x : α) :
    (if P then (if Q then some x else none) else none).isSome
      = decide (P ∧ Q) := by
  by_cases h1 : P <;> by_cases h2 : Q <;> simp [h1, h2]

/-- The embedded Go parser accepts a string exactly when it is an
8-digit calendar-valid YYYYMMDD token. -/
theorem parseYYYYMMDD_isSome (s : String) :
    (parseYYYYMMDD s).isSome = isYYYYMMDDToken s := by
  by_cases hlen : s.data.length = 8
  · obtain ⟨a, b, c, d, e, f, g, k, hdata⟩ := list_eq_of_length_eight s.data hlen
    have hsplit : ∀ p : Char → Bool,
        [a, b, c, d, e, f, g, k].all p
          = ([a, b, c, d].all p && [e, f].all p && [g, k].all p) := by
      intro p
      simp [List.all_cons, Bool.and_assoc]
    have ht1 : List.take 4 [a, b, c, d, e, f, g, k] = [a, b, c, d] := rfl
    have ht2 : List.take 2 (List.drop 4 [a, b, c, d, e, f, g, k]) = [e, f] := rfl
    have ht3 : List.drop 6 [a, b, c, d, e, f, g, k] = [g, k] := rfl
    simp only [parseYYYYMMDD, isYYYYMMDDToken, tokenDate, hdata, hsplit, ht1,
      ht2, ht3, parseDigits_eq, List.length_cons, List.length_nil]
    by_cases h1 : [a, b, c, d].all Char.isDigit
    · by_cases h2 : [e, f].all Char.isDigit
      · by_cases h3 : [g, k].all Char.isDigit
        · simp only [h1, h2, h3, if_true, Bool.true_and, List.foldl_cons,
            List.foldl_nil, Bool.and_true]
          rw [isSome_double_ite]
          simp [Date.valid, Bool.decide_and, Bool.and_assoc, Nat.zero_mul,
            Nat.zero_add]
        · rw [Bool.not_eq_true] at h3
          simp [h1, h2, h3]
      · rw [Bool.not_eq_true] at h2
        simp [h1, h2]
    · rw [Bool.not_eq_true] at h1
      simp [h1]
  · have hlen2 : ¬(s.length = 8) := hlen
    simp [parseYYYYMMDD, isYYYYMMDDToken, hlen, hlen2]

/-- C5: `GetWordsByDate` fails with the invalid-date error exactly when
the string is not an 8-digit calendar-valid YYYYMMDD token; on failure
the store is never queried, and on success the store is queried exactly
once with the parsed date. -/
theorem getWordsByDate_parse (query : Int → Date → List Word) (uid : Int)
    (s : String) :
    ((getWordsByDate query uid s).1 = .error "invalid date format"
      ↔ isYYYYMMDDToken s = false) ∧
    (isYYYYMMDDToken s = false →
      getWordsByDate query uid s = (.error "invalid date format", [])) ∧
    (∀ d, parseYYYYMMDD s = some d →
      getWordsByDate query uid s = (.ok (query uid d), [d])) := by
  have hiff := parseYYYYMMDD_isSome s
  refine ⟨?_, ?_, ?_⟩
  · cases hp : parseYYYYMMDD s with
    | none =>
      rw [hp] at hiff
      simp [getWordsByDate, hp, ← hiff]
    | some d =>
      rw [hp] at hiff
      simp [getWordsByDate, hp, ← hiff]
  · intro htok
    rw [htok] at hiff
    cases hp : parseYYYYMMDD s with
    | none => simp [getWordsByDate, hp]
    | some d => rw [hp] at hiff; simp at hiff
  · intro d hp
    simp [getWordsByDate, hp]

/-- Witness for C5: "20241212" parses and queries the store with
2024-12-12; "2024-12-12" fails without touching the store. -/
theorem getWordsByDate_parse_witness :
    getWordsByDate (fun _ _ => []) 1 "2024-12-12"
      = (.error "invalid date format", []) ∧
    getWordsByDate (fun _ _ => []) 1 "20241212"
      = (.ok [], [⟨2024, 12, 12⟩]) :=
  ⟨(getWordsByDate_parse (fun _ _ => []) 1 "2024-12-12").2.1 (by decide),
   (getWordsByDate_parse (fun _ _ => []) 1 "20241212").2.2 ⟨2024, 12, 12⟩ rfl⟩

/-- Digit characters are digits. -/
theorem isDigit_digitChar (n : Nat) (h : n < 10) : (digitChar n).isDigit = true := by
  interval_cases n <;> rfl

/-- `digitChar` of a last-digit value is a digit. -/
theorem isDigit_digitChar_mod (n : Nat) : (digitChar (n % 10)).isDigit = true :=
  isDigit_digitChar _ (Nat.mod_lt _ (by norm_num))

/-- `charDigit` inverts `digitChar` on digit values. -/
theorem charDigit_digitChar (n : Nat) (h : n < 10) :
    charDigit (digitChar n) = n := by
  interval_cases n <;> rfl

/-- `charDigit` inverts `digitChar` on last-digit values. -/
theorem charDigit_digitChar_mod (n : Nat) :
    charDigit (digitChar (n % 10)) = n % 10 :=
  charDigit_digitChar _ (Nat.mod_lt _ (by norm_num))

/-- Every month length is at most 31. -/
theorem daysInMonth_le (y m : Nat) : daysInMonth y m ≤ 31 := by
  unfold daysInMonth
  split
  · split <;> omega
  · split <;> omega

/-- Unfolding the parser on an explicit 8-character string. -/
theorem parseYYYYMMDD_mk (c1 c2 c3 c4 c5 c6 c7 c8 : Char) :
    parseYYYYMMDD ⟨[c1, c2, c3, c4, c5, c6, c7, c8]⟩
      = (match parseDigits [c1, c2, c3, c4] 0, parseDigits [c5, c6] 0,
            parseDigits [c7, c8] 0 with
         | some y, some m, some d =>
           if 1 ≤ m ∧ m ≤ 12 then
             if 1 ≤ d ∧ d ≤ daysInMonth y m then some ⟨y, m, d⟩ else none
           else none
         | _, _, _ => none) := rfl

/-- `parseDigits` on four digit characters. -/
theorem parseDigits_four (a b c d : Nat) :
    parseDigits [digitChar (a % 10), digitChar (b % 10), digitChar (c % 10),
        digitChar (d % 10)] 0
      = some (((a % 10 * 10 + b % 10) * 10 + c % 10) * 10 + d % 10) := by
  simp [parseDigits_eq, isDigit_digitChar_mod, charDigit_digitChar_mod,
    List.all_cons, List.foldl_cons]

/-- `parseDigits` on two digit characters. -/
theorem parseDigits_two (a b : Nat) :
    parseDigits [digitChar (a % 10), digitChar (b % 10)] 0
      = some (a % 10 * 10 + b % 10) := by
  simp [parseDigits_eq, isDigit_digitChar_mod, charDigit_digitChar_mod,
    List.all_cons, List.foldl_cons]

/-- C10: for every valid day aggregate with a year in 1–9999, the
`YYYYMMDD` string produced by `Day.DateString` parses under
`GetWordsByDate`'s parser back to the same calendar day. -/
theorem dateString_roundtrip (d : Day) (hv : d.date.valid = true)
    (hy1 : 1 ≤ d.date.year) (hy2 : d.date.year ≤ 9999) :
    parseYYYYMMDD (Day.DateString d) = some d.date := by
  obtain ⟨⟨y, m, dd⟩, cnt⟩ := d
  simp only [Date.valid, Bool.and_eq_true, decide_eq_true_eq] at hv
  obtain ⟨⟨⟨hm1, hm2⟩, hd1⟩, hd2⟩ := hv
  simp only at hy1 hy2 hd2
  have h4 : y < 10000 := by omega
  have hm100 : m < 100 := by omega
  have hdd100 : dd < 100 := by
    have := daysInMonth_le y m
    omega
  simp only [Day.DateString, pad4, pad2]
  rw [if_pos h4, if_pos hm100, if_pos hdd100]
  have hstr : (String.mk [digitChar (y / 1000 % 10), digitChar (y / 100 % 10),
      digitChar (y / 10 % 10), digitChar (y % 10)]
      ++ String.mk [digitChar (m / 10 % 10), digitChar (m % 10)]
      ++ String.mk [digitChar (dd / 10 % 10), digitChar (dd % 10)])
      = String.mk [digitChar (y / 1000 % 10), digitChar (y / 100 % 10),
         digitChar (y / 10 % 10), digitChar (y % 10), digitChar (m / 10 % 10),
         digitChar (m % 10), digitChar (dd / 10 % 10), digitChar (dd % 10)] := rfl
  rw [hstr, parseYYYYMMDD_mk, parseDigits_four, parseDigits_two, parseDigits_two]
  rw [show ((y / 1000 % 10 * 10 + y / 100 % 10) * 10 + y / 10 % 10) * 10 + y % 10
        = y from by omega,
      show m / 10 % 10 * 10 + m % 10 = m from by omega,
      show dd / 10 % 10 * 10 + dd % 10 = dd from by omega]
  simp [hm1, hm2, hd1, hd2]

/-- Witness for C10: the day button for 2024-12-12 round-trips. -/
theorem dateString_roundtrip_witness :
    parseYYYYMMDD (Day.DateString ⟨⟨2024, 12, 12⟩, 5⟩) = some ⟨2024, 12, 12⟩ :=
  dateString_roundtrip ⟨⟨2024, 12, 12⟩, 5⟩ (by decide) (by decide) (by decide)

end Languager
